import Mathlib

/-!
Verification of the MentraLaunchHack shot-detection pipeline.

Shallow embedding of the Python sources:
  * `util/shot_analyzer.py`       — namespace `ShotAnalyzer`
  * `util/finger_gun_detector.py` — namespace `FingerGun`
  * `util/webrtc_client.py`       — namespace `WebRTC`

Machine floats are modelled by `ℚ` (every constant involved is an exact
decimal and only comparisons matter), Python ints by `ℤ`/`ℕ`.  Image
content is abstracted to the pixel statistics the code derives from it
(per-box mask pixel counts), and the YOLO / MediaPipe models are treated
as black boxes supplying their output lists, as the spec prescribes.
-/

namespace ShotAnalyzer

/-- A bounding box `(x1, y1, x2, y2)` in pixel coordinates, as used
throughout `shot_analyzer.py`. -/
structure Box where
  x1 : ℤ
  y1 : ℤ
  x2 : ℤ
  y2 : ℤ
deriving DecidableEq, Repr

/-- `ShotAnalyzer.boxes_overlap` (shot_analyzer.py lines 37-56): returns
`true` iff the boxes intersect with positive extent, the first (hand) box
has positive area, and intersection area divided by the hand-box area
strictly exceeds `threshold` (default 0.3). -/
def boxes_overlap (box1 box2 : Box) (threshold : ℚ := 3/10) : Bool :=
  let x1i := max box1.x1 box2.x1
  let y1i := max box1.y1 box2.y1
  let x2i := min box1.x2 box2.x2
  let y2i := min box1.y2 box2.y2
  if x2i ≤ x1i ∨ y2i ≤ y1i then
    false
  else
    let intersection := (x2i - x1i) * (y2i - y1i)
    let area_hand := (box1.x2 - box1.x1) * (box1.y2 - box1.y1)
    decide (0 < area_hand ∧ threshold < (intersection : ℚ) / (area_hand : ℚ))

/-- Intersection area of two boxes, zero when they do not intersect with
positive extent.  Spec-side companion of `boxes_overlap`, used to state the
overlap-ratio claim. -/
def interArea (b1 b2 : Box) : ℤ :=
  let iw := min b1.x2 b2.x2 - max b1.x1 b2.x1
  let ih := min b1.y2 b2.y2 - max b1.y1 b2.y1
  if iw ≤ 0 ∨ ih ≤ 0 then 0 else iw * ih

/-- Area of a box. -/
def boxArea (b : Box) : ℤ := (b.x2 - b.x1) * (b.y2 - b.y1)

/-- Overlap ratio of `b2` against the reference box `b1`: intersection area
divided by the area of `b1` (asymmetric, not IoU). -/
def overlapRatio (b1 b2 : Box) : ℚ := (interArea b1 b2 : ℚ) / (boxArea b1 : ℚ)

/-- `MIN_HIGHVIS_AREA = 500` (shot_analyzer.py line 25). -/
def MIN_HIGHVIS_AREA : ℕ := 500

/-- `USER_TEAM = "regular"` (shot_analyzer.py line 28): the shooter's own
team (not wearing high-vis). -/
def USER_TEAM : String := "regular"

/-- `PLAYER_CONFIG` (shot_analyzer.py lines 10-13) together with the
`.get(player_id, ("unknown", "yellow"))` lookup of line 35: maps a player
id to `(username, target_team)`. -/
def PLAYER_CONFIG (player_id : ℕ) : String × String :=
  if player_id = 1 then ("Phil", "yellow")
  else if player_id = 2 then ("Kevin", "green")
  else ("unknown", "yellow")

/-- `ShotAnalyzer.classify_person_team` (shot_analyzer.py lines 79-116).
The image-processing prefix (ROI slicing of the colour masks and
`cv2.countNonZero`) is abstracted by its results: `total` is the ROI pixel
count (`roi_yellow.size`), `yellow_pixels` and `green_pixels` the nonzero
counts of the two masks inside the ROI.  The decision logic from line 94 on
is translated verbatim: empty ROI gives `none`; a colour is valid when its
percentage strictly exceeds 3 and its pixel count strictly exceeds
`MIN_HIGHVIS_AREA`; with both valid the larger raw count wins (ties going
to green, as `yellow_pixels > green_pixels` is false then). -/
def classify_person_team (total yellow_pixels green_pixels : ℕ) : Option String :=
  if total = 0 then none
  else
    let yellow_pct : ℚ := (yellow_pixels : ℚ) / (total : ℚ) * 100
    let green_pct : ℚ := (green_pixels : ℚ) / (total : ℚ) * 100
    let yellow_valid := 3 < yellow_pct ∧ MIN_HIGHVIS_AREA < yellow_pixels
    let green_valid := 3 < green_pct ∧ MIN_HIGHVIS_AREA < green_pixels
    if yellow_valid ∧ green_valid then
      if green_pixels < yellow_pixels then some "yellow" else some "green"
    else if yellow_valid then some "yellow"
    else if green_valid then some "green"
    else none

/-- Outcome of the single HTTP POST made by `send_hit_to_api`: either a
response with a status code and body, or a transport exception raised by
`requests.post`. -/
inductive NetOutcome where
  | response (status : ℕ) (body : String)
  | exception (msg : String)
deriving DecidableEq, Repr

/-- `ShotAnalyzer.send_hit_to_api` (shot_analyzer.py lines 118-134): the
call is wrapped in a catch-all `try/except`, so it never raises; it returns
`true` exactly on status 200, and `false` on any other status or on a
transport exception (both merely logged). -/
def send_hit_to_api : NetOutcome → Bool
  | .response status _ => status == 200
  | .exception _ => false

/-- The crosshair point `(w // 2, h // 2)` of `is_valid_hit` line 156. -/
def crosshair (w h : ℕ) : ℕ × ℕ := (w / 2, h / 2)

/-- The containment test of `is_valid_hit` line 175:
`x1 <= center_x <= x2 and y1 <= center_y <= y2` (inclusive bounds). -/
def contains_crosshair (w h : ℕ) (b : Box) : Bool :=
  decide (b.x1 ≤ ((crosshair w h).1 : ℤ) ∧ ((crosshair w h).1 : ℤ) ≤ b.x2 ∧
          b.y1 ≤ ((crosshair w h).2 : ℤ) ∧ ((crosshair w h).2 : ℤ) ≤ b.y2)

/-- The self-exclusion test of `is_valid_hit` line 171:
`hand_bbox is not None and self.boxes_overlap(hand_bbox, person_box)`. -/
def excluded_by_hand (hand_bbox : Option Box) (b : Box) : Bool :=
  match hand_bbox with
  | some hb => boxes_overlap hb b
  | none => false

/-- Result of one `is_valid_hit` call: the returned boolean, the resolved
team of the selected target (if one was selected), and how many times
`send_hit_to_api` was invoked. -/
structure HitResult where
  valid : Bool
  targetTeam : Option String
  reports : ℕ
deriving DecidableEq, Repr

/-- The decoded shot image, abstracted: frame dimensions, the YOLO person
boxes in the detector's native output order, and for each box the mask
pixel statistics `(total, yellow, green)` that `classify_person_team`
counts in its upper-torso ROI. -/
structure FrameData where
  w : ℕ
  h : ℕ
  boxes : List Box
  counts : Box → ℕ × ℕ × ℕ

/-- Body of `is_valid_hit` lines 176-191 for the selected target box:
resolve the team (a `None` classification defaults to `"green"`, lines
180-181); on a target-team match invoke `send_hit_to_api` (its result is
discarded by the source) and return `True`, otherwise return `False`. -/
def judge_target (target_team : String) (counts : Box → ℕ × ℕ × ℕ)
    (net : NetOutcome) (b : Box) : HitResult :=
  let c := counts b
  let person_team := (classify_person_team c.1 c.2.1 c.2.2).getD "green"
  if person_team = target_team then
    let _ := send_hit_to_api net
    { valid := true, targetTeam := some person_team, reports := 1 }
  else
    { valid := false, targetTeam := some person_team, reports := 0 }

/-- The detection loop of `is_valid_hit` lines 164-194: walk the person
boxes in native order, skip any box overlapping the hand bbox, and decide
the shot on the first remaining box containing the crosshair; if none
does, the shot is a miss. -/
def validate_boxes (target_team : String) (w h : ℕ) (hand_bbox : Option Box)
    (counts : Box → ℕ × ℕ × ℕ) (net : NetOutcome) : List Box → HitResult
  | [] => { valid := false, targetTeam := none, reports := 0 }
  | b :: rest =>
    if excluded_by_hand hand_bbox b then
      validate_boxes target_team w h hand_bbox counts net rest
    else if contains_crosshair w h b then
      judge_target target_team counts net b
    else
      validate_boxes target_team w h hand_bbox counts net rest

/-- `ShotAnalyzer.is_valid_hit` (shot_analyzer.py lines 136-194):
`cv2.imread` failure (`frame is None`, lines 150-153) returns `False`
immediately; otherwise the detection loop above runs on the decoded
frame. -/
def is_valid_hit (target_team : String) (img : Option FrameData)
    (hand_bbox : Option Box) (net : NetOutcome) : HitResult :=
  match img with
  | none => { valid := false, targetTeam := none, reports := 0 }
  | some f => validate_boxes target_team f.w f.h hand_bbox f.counts net f.boxes

end ShotAnalyzer

namespace FingerGun

/-- Hand ids are the MediaPipe handedness labels
(`handedness.classification[0].label`, finger_gun_detector.py line 609). -/
abbrev HandId := String

/-- The per-detector gesture state of `FingerGunDetector.__init__`
(finger_gun_detector.py lines 64-69): `prev_thumb_y` and `is_cocked` are
per-hand dictionaries, while `last_shot_time` is a single field shared by
all hands.  `last_shot_of_hand` is verification-only bookkeeping recording
the time of each hand's own last emitted shot; the decision logic never
reads it. -/
structure GState where
  prev_thumb_y : HandId → Option ℚ
  is_cocked : HandId → Bool
  last_shot_time : ℚ
  last_shot_of_hand : HandId → ℚ

/-- `self.cock_threshold = 0.02` (line 67). -/
def cock_threshold : ℚ := 1/50

/-- `self.shot_cooldown = 1.0` (line 69). -/
def shot_cooldown : ℚ := 1

/-- The state right after `__init__`: empty dictionaries and
`last_shot_time = 0`; each hand's own last-shot time starts at 0 too. -/
def initial_state : GState :=
  { prev_thumb_y := fun _ => none
    is_cocked := fun _ => false
    last_shot_time := 0
    last_shot_of_hand := fun _ => 0 }

/-- `FingerGunDetector.detect_cock_motion` (finger_gun_detector.py lines
231-271), returning `(shot_fired, new state)`.  A first observation of a
hand id initialises its entries and fires nothing.  Otherwise: upward thumb
movement past the threshold while not cocked cocks the hand; downward
movement past the threshold while cocked is the firing motion — it emits a
shot only off cooldown (`now - last_shot_time >= shot_cooldown`) and in
either case un-cocks the hand; the previous thumb position is always
updated. -/
def detect_cock_motion (s : GState) (hand_id : HandId) (thumb_y now : ℚ) :
    Bool × GState :=
  match s.prev_thumb_y hand_id with
  | none =>
      (false,
        { s with
          prev_thumb_y := fun h => if h = hand_id then some thumb_y else s.prev_thumb_y h
          is_cocked := fun h => if h = hand_id then false else s.is_cocked h })
  | some prev =>
      let on_cooldown := now - s.last_shot_time < shot_cooldown
      let thumb_movement := thumb_y - prev
      let upd_prev : HandId → Option ℚ :=
        fun h => if h = hand_id then some thumb_y else s.prev_thumb_y h
      if thumb_movement < -cock_threshold ∧ s.is_cocked hand_id = false then
        (false,
          { s with
            is_cocked := fun h => if h = hand_id then true else s.is_cocked h
            prev_thumb_y := upd_prev })
      else if cock_threshold < thumb_movement ∧ s.is_cocked hand_id = true then
        if ¬ on_cooldown then
          (true,
            { s with
              last_shot_time := now
              last_shot_of_hand := fun h => if h = hand_id then now else s.last_shot_of_hand h
              is_cocked := fun h => if h = hand_id then false else s.is_cocked h
              prev_thumb_y := upd_prev })
        else
          (false,
            { s with
              is_cocked := fun h => if h = hand_id then false else s.is_cocked h
              prev_thumb_y := upd_prev })
      else
        (false, { s with prev_thumb_y := upd_prev })

/-- `FingerGunDetector.on_hit` (finger_gun_detector.py lines 129-136):
the kill-streak update on a hit result. -/
def on_hit (kill_streak : ℕ) (valid : Bool) : ℕ :=
  if valid then kill_streak + 1 else 0

/-- A hand's landmarks in pixel coordinates.  `get_hand_bbox` computes
`int(lm.x * w), int(lm.y * h)` from the normalized landmarks; those
integer pixel coordinates are the input here. -/
abbrev Landmarks := List (ℤ × ℤ)

/-- Minimum of a list of integers (Python `min`); junk value 0 on the empty
list, which never occurs for the 21-landmark hands of the source. -/
def minList : List ℤ → ℤ
  | [] => 0
  | x :: xs => xs.foldl min x

/-- Maximum of a list of integers (Python `max`); junk value 0 on `[]`. -/
def maxList : List ℤ → ℤ
  | [] => 0
  | x :: xs => xs.foldl max x

/-- `FingerGunDetector.get_hand_bbox` (finger_gun_detector.py lines
335-349): landmark extents padded by 30 pixels and clamped to the frame. -/
def get_hand_bbox (w h : ℤ) (lms : Landmarks) : ShotAnalyzer.Box :=
  let padding : ℤ := 30
  let x_min := max 0 (minList (lms.map Prod.fst) - padding)
  let x_max := min w (maxList (lms.map Prod.fst) + padding)
  let y_min := max 0 (minList (lms.map Prod.snd) - padding)
  let y_max := min h (maxList (lms.map Prod.snd) + padding)
  ⟨x_min, y_min, x_max, y_max⟩

/-- `FingerGunDetector.get_hand_size` (lines 351-355): area of the padded
bounding box. -/
def get_hand_size (w h : ℤ) (lms : Landmarks) : ℤ :=
  ShotAnalyzer.boxArea (get_hand_bbox w h lms)

/-- The loop of `get_closest_hand` (lines 362-369): running
`(max_size, closest_idx)` over the enumerated hands, updating on a strict
size increase, starting from `(0, 0)`. -/
def closest_aux (w h : ℤ) (max_size : ℤ) (closest_idx i : ℕ) :
    List Landmarks → ℤ × ℕ
  | [] => (max_size, closest_idx)
  | lms :: rest =>
    if max_size < get_hand_size w h lms then
      closest_aux w h (get_hand_size w h lms) i (i + 1) rest
    else
      closest_aux w h max_size closest_idx (i + 1) rest

/-- `FingerGunDetector.get_closest_hand` (finger_gun_detector.py lines
357-371): `(None, -1)` on an empty list, otherwise the hand at the index
selected by the loop. -/
def get_closest_hand (w h : ℤ) (hands : List Landmarks) :
    Option Landmarks × ℤ :=
  match hands with
  | [] => (none, -1)
  | _ :: _ =>
    let r := closest_aux w h 0 0 0 hands
    (hands.get? r.2, (r.2 : ℤ))

/-- `max_failures = 30` (finger_gun_detector.py line 733). -/
def max_failures : ℕ := 30

/-- The fixed `time.sleep(2)` between reconnect attempts (line 762),
in seconds. -/
def reconnect_retry_interval : ℚ := 2

/-- Whether the frame loop of `main` is still consuming the live stream or
has torn the capture down and entered the reconnect loop. -/
inductive Mode where
  | streaming
  | reconnecting
deriving DecidableEq, Repr

/-- The `consecutive_failures` counter of `main` plus the loop phase. -/
structure MainState where
  consecutive_failures : ℕ
  mode : Mode
deriving DecidableEq, Repr

/-- One iteration of the read loop of `main` (finger_gun_detector.py lines
735-776) as seen by the failure counter: a successful `read` resets the
counter (line 776); a failed one increments it, and on reaching
`max_failures` the capture is released and the reconnect loop entered
(lines 741-743). -/
def read_step (s : MainState) (ok : Bool) : MainState :=
  if ok then
    { consecutive_failures := 0, mode := .streaming }
  else if max_failures ≤ s.consecutive_failures + 1 then
    { consecutive_failures := s.consecutive_failures + 1, mode := .reconnecting }
  else
    { consecutive_failures := s.consecutive_failures + 1, mode := .streaming }

/-- Run the read loop from a fresh connection (`consecutive_failures = 0`,
line 732) over a sequence of read results. -/
def run_reads (rs : List Bool) : MainState :=
  rs.foldl read_step { consecutive_failures := 0, mode := .streaming }

/-- State of the video source during the reconnect loop of `main` (lines
746-770): still reconnecting (no live capture), successfully reconnected,
or stopped by the quit key. -/
inductive RState where
  | connected
  | reconnecting
  | stopped
deriving DecidableEq, Repr

/-- The video source counts as open only when a reconnect has succeeded. -/
def rstate_open : RState → Bool
  | .connected => true
  | _ => false

/-- The reconnect loop of `main` (finger_gun_detector.py lines 746-770).
Each element of the input is one iteration: whether the
`cv2.VideoCapture` attempt opened and delivered a test frame, and whether
the quit key was pressed afterwards.  A successful attempt breaks out
immediately with a connection; a failed one sleeps
`reconnect_retry_interval` seconds (counted in the second component) and
then honours the quit key.  An exhausted input means the loop is still
retrying. -/
def reconnect_loop : List (Bool × Bool) → RState × ℕ
  | [] => (.reconnecting, 0)
  | (true, _) :: _ => (.connected, 0)
  | (false, q) :: rest =>
    if q then (.stopped, 1)
    else
      let r := reconnect_loop rest
      (r.1, r.2 + 1)

end FingerGun

namespace WebRTC

/-- `queue.Queue(maxsize=2)` (webrtc_client.py line 20). -/
def FRAME_QUEUE_MAXSIZE : ℕ := 2

/-- The producer step of `_receive_frames` (webrtc_client.py lines
124-135): `put_nowait` the new frame; if the queue is full, `get_nowait`
the oldest queued frame and `put_nowait` the new one.  The queue is the
list of frames, oldest first; the producer never blocks. -/
def put_frame {α : Type} (q : List α) (f : α) : List α :=
  if q.length < FRAME_QUEUE_MAXSIZE then q ++ [f] else q.drop 1 ++ [f]

/-- The consumer step of `read` (webrtc_client.py lines 182-189): take the
oldest queued frame if there is one. -/
def read_frame {α : Type} (q : List α) : Option α × List α :=
  match q with
  | [] => (none, [])
  | x :: xs => (some x, xs)

/-- An operation on the frame queue: the network thread produces a frame,
or the orchestrator consumes one. -/
inductive QOp (α : Type) where
  | produce (f : α)
  | consume

/-- Apply one queue operation. -/
def queue_step {α : Type} (q : List α) : QOp α → List α
  | .produce f => put_frame q f
  | .consume => (read_frame q).2

/-- Run a sequence of queue operations from the initially empty queue. -/
def run_queue {α : Type} (ops : List (QOp α)) : List α :=
  ops.foldl queue_step []

/-- `WebRTCClient.isOpened` (webrtc_client.py lines 191-193):
`self.connected and self.running`. -/
def isOpened (connected running : Bool) : Bool := connected && running

end WebRTC

/-! ## Theorems -/

namespace ShotAnalyzer

/-- C3: the Hit Validator's exclusion test `boxes_overlap` fires exactly on
detections whose overlap ratio against the (positive-area) hand box —
intersection area divided by the hand-box area — strictly exceeds the
threshold 3/10; detections at or below the threshold, including
non-intersecting ones (ratio 0), are kept. -/
theorem boxes_overlap_iff_ratio_gt (hand p : Box) (hpos : 0 < boxArea hand) :
    boxes_overlap hand p = true ↔ 3/10 < overlapRatio hand p := by
  unfold boxes_overlap overlapRatio interArea boxArea at *
  by_cases hdeg : min hand.x2 p.x2 ≤ max hand.x1 p.x1 ∨ min hand.y2 p.y2 ≤ max hand.y1 p.y1
  · simp only [hdeg, if_pos, ite_true]
    have hz : (if (min hand.x2 p.x2 - max hand.x1 p.x1 ≤ 0 ∨
        min hand.y2 p.y2 - max hand.y1 p.y1 ≤ 0) then (0:ℤ) else
        (min hand.x2 p.x2 - max hand.x1 p.x1) * (min hand.y2 p.y2 - max hand.y1 p.y1)) = 0 := by
      rw [if_pos]
      rcases hdeg with h | h
      · exact Or.inl (by omega)
      · exact Or.inr (by omega)
    rw [hz]
    simp only [Int.cast_zero, zero_div]
    constructor
    · intro h; exact absurd h (by simp)
    · intro h; norm_num at h
  · push_neg at hdeg
    obtain ⟨hx, hy⟩ := hdeg
    simp only [if_neg (by push_neg; exact ⟨hx, hy⟩ :
      ¬(min hand.x2 p.x2 ≤ max hand.x1 p.x1 ∨ min hand.y2 p.y2 ≤ max hand.y1 p.y1))]
    have hiw : ¬(min hand.x2 p.x2 - max hand.x1 p.x1 ≤ 0 ∨
        min hand.y2 p.y2 - max hand.y1 p.y1 ≤ 0) := by push_neg; omega
    rw [if_neg hiw]
    simp only [decide_eq_true_eq]
    constructor
    · rintro ⟨_, h⟩; exact h
    · intro h; exact ⟨hpos, h⟩

/-- Witness for C3 at a concrete input: hand box `[0,10]x[0,10]` (area 100)
against person box `[0,7]x[0,7]` (intersection 49, ratio 49/100 > 3/10). -/
theorem boxes_overlap_iff_ratio_gt_witness :
    0 < boxArea ⟨0, 0, 10, 10⟩ ∧
      (boxes_overlap ⟨0, 0, 10, 10⟩ ⟨0, 0, 7, 7⟩ = true ↔
        3/10 < overlapRatio ⟨0, 0, 10, 10⟩ ⟨0, 0, 7, 7⟩) :=
  ⟨by decide, boxes_overlap_iff_ratio_gt ⟨0, 0, 10, 10⟩ ⟨0, 0, 7, 7⟩ (by decide)⟩

/-- C10: when the saved shot image cannot be decoded (`cv2.imread` returns
`None`), `is_valid_hit` returns a miss — `False`, no target team — without
any call to the reporting client, and (being a total function of the
embedded state) without raising. -/
theorem is_valid_hit_no_image_is_miss (target_team : String)
    (hand_bbox : Option Box) (net : NetOutcome) :
    is_valid_hit target_team none hand_bbox net =
      { valid := false, targetTeam := none, reports := 0 } := rfl

end ShotAnalyzer

namespace ShotAnalyzer

theorem judge_target_net_irrelevant (target_team : String)
    (counts : Box → ℕ × ℕ × ℕ) (net net' : NetOutcome) (b : Box) :
    judge_target target_team counts net b = judge_target target_team counts net' b := rfl

theorem validate_boxes_net_irrelevant (target_team : String) (w h : ℕ)
    (hand_bbox : Option Box) (counts : Box → ℕ × ℕ × ℕ)
    (net net' : NetOutcome) (boxes : List Box) :
    validate_boxes target_team w h hand_bbox counts net boxes =
      validate_boxes target_team w h hand_bbox counts net' boxes := by
  induction boxes with
  | nil => rfl
  | cons b rest ih =>
    unfold validate_boxes
    split
    · exact ih
    · split
      · exact judge_target_net_irrelevant target_team counts net net' b
      · exact ih

theorem judge_target_reports_eq_valid (target_team : String)
    (counts : Box → ℕ × ℕ × ℕ) (net : NetOutcome) (b : Box) :
    (judge_target target_team counts net b).reports =
      if (judge_target target_team counts net b).valid then 1 else 0 := by
  unfold judge_target
  by_cases hp : ((classify_person_team (counts b).1 (counts b).2.1
      (counts b).2.2).getD "green") = target_team
  · simp [hp]
  · simp [hp]

theorem validate_boxes_reports_eq_valid (target_team : String) (w h : ℕ)
    (hand_bbox : Option Box) (counts : Box → ℕ × ℕ × ℕ)
    (net : NetOutcome) (boxes : List Box) :
    (validate_boxes target_team w h hand_bbox counts net boxes).reports =
      if (validate_boxes target_team w h hand_bbox counts net boxes).valid then 1 else 0 := by
  induction boxes with
  | nil => rfl
  | cons b rest ih =>
    unfold validate_boxes
    split
    · exact ih
    · split
      · exact judge_target_reports_eq_valid target_team counts net b
      · exact ih

/-- C7: the Hit Reporting Client is invoked exactly once on a valid hit
and never on an invalid hit or a miss (`reports = if valid then 1 else 0`);
the outcome of the reporting call — any response or transport exception —
never changes the hit decision (the whole result is independent of the
network outcome, hence so is the streak `on_hit` computes from it); a
transport exception makes `send_hit_to_api` return `false` rather than
propagate, and any non-200 response is likewise a soft `false`. -/
theorem reporting_once_and_soft_failure (target_team : String) (w h : ℕ)
    (hand_bbox : Option Box) (counts : Box → ℕ × ℕ × ℕ) (boxes : List Box) :
    (∀ net net' : NetOutcome,
        validate_boxes target_team w h hand_bbox counts net boxes =
          validate_boxes target_team w h hand_bbox counts net' boxes)
    ∧ (∀ net : NetOutcome,
        (validate_boxes target_team w h hand_bbox counts net boxes).reports =
          if (validate_boxes target_team w h hand_bbox counts net boxes).valid then 1 else 0)
    ∧ (∀ msg : String, send_hit_to_api (.exception msg) = false)
    ∧ (∀ (status : ℕ) (body : String), status ≠ 200 →
        send_hit_to_api (.response status body) = false) := by
  refine ⟨?_, ?_, ?_, ?_⟩
  · exact fun net net' => validate_boxes_net_irrelevant target_team w h hand_bbox counts net net' boxes
  · exact fun net => validate_boxes_reports_eq_valid target_team w h hand_bbox counts net boxes
  · intro msg; rfl
  · intro status body hne
    simp [send_hit_to_api, hne]

/-- Witness for C7 at concrete inputs: a 404 response is a soft failure,
and on a one-box miss (box away from the crosshair) no report is made. -/
theorem reporting_once_and_soft_failure_witness :
    (404 : ℕ) ≠ 200 ∧ send_hit_to_api (.response 404 "err") = false ∧
      (validate_boxes "yellow" 100 100 none (fun _ => (0, 0, 0)) (.response 404 "err")
        [⟨0, 0, 10, 10⟩]).reports =
        if (validate_boxes "yellow" 100 100 none (fun _ => (0, 0, 0)) (.response 404 "err")
          [⟨0, 0, 10, 10⟩]).valid then 1 else 0 := by
  refine ⟨by decide, ?_, ?_⟩
  · exact (reporting_once_and_soft_failure "yellow" 100 100 none (fun _ => (0, 0, 0))
      [⟨0, 0, 10, 10⟩]).2.2.2 404 "err" (by decide)
  · exact (reporting_once_and_soft_failure "yellow" 100 100 none (fun _ => (0, 0, 0))
      [⟨0, 0, 10, 10⟩]).2.1 (.response 404 "err")

end ShotAnalyzer

namespace WebRTC

theorem put_frame_length_le {α : Type} (q : List α) (f : α)
    (hq : q.length ≤ FRAME_QUEUE_MAXSIZE) :
    (put_frame q f).length ≤ FRAME_QUEUE_MAXSIZE := by
  unfold put_frame FRAME_QUEUE_MAXSIZE at *
  split
  · rename_i h
    simp only [List.length_append, List.length_singleton]
    omega
  · rename_i h
    simp only [List.length_append, List.length_drop, List.length_singleton]
    omega

theorem queue_step_length_le {α : Type} (q : List α) (op : QOp α)
    (hq : q.length ≤ FRAME_QUEUE_MAXSIZE) :
    (queue_step q op).length ≤ FRAME_QUEUE_MAXSIZE := by
  cases op with
  | produce f => exact put_frame_length_le q f hq
  | consume =>
    cases q with
    | nil => simp [queue_step, read_frame]
    | cons x xs =>
      unfold FRAME_QUEUE_MAXSIZE at *
      simp only [queue_step, read_frame, List.length_cons] at *
      omega

theorem foldl_queue_step_length_le {α : Type} (ops : List (QOp α)) :
    ∀ q : List α, q.length ≤ FRAME_QUEUE_MAXSIZE →
      (ops.foldl queue_step q).length ≤ FRAME_QUEUE_MAXSIZE := by
  induction ops with
  | nil => intro q hq; simpa using hq
  | cons op rest ih =>
    intro q hq
    simp only [List.foldl_cons]
    exact ih (queue_step q op) (queue_step_length_le q op hq)

/-- C8: the Video Source frame queue has capacity `FRAME_QUEUE_MAXSIZE = 2`;
its length never exceeds 2 under any interleaving of producer and consumer
operations from the empty queue; and producing into a full queue drops the
oldest queued frame and appends the newest (the producer step is a total
function — it never blocks). -/
theorem frame_queue_bounded_and_drop_oldest :
    FRAME_QUEUE_MAXSIZE = 2
    ∧ (∀ ops : List (QOp ℕ), (run_queue ops).length ≤ FRAME_QUEUE_MAXSIZE)
    ∧ (∀ a b c : ℕ, put_frame [a, b] c = [b, c]) := by
  refine ⟨rfl, ?_, ?_⟩
  · intro ops
    exact foldl_queue_step_length_le ops [] (by simp)
  · intro a b c
    rfl

end WebRTC

namespace ShotAnalyzer

theorem validate_boxes_eq_first_target (target_team : String) (w h : ℕ)
    (hand_bbox : Option Box) (counts : Box → ℕ × ℕ × ℕ) (net : NetOutcome)
    (boxes : List Box) :
    validate_boxes target_team w h hand_bbox counts net boxes =
      match (boxes.filter fun b => !excluded_by_hand hand_bbox b).filter
          (contains_crosshair w h) with
      | [] => { valid := false, targetTeam := none, reports := 0 }
      | b :: _ => judge_target target_team counts net b := by
  induction boxes with
  | nil => rfl
  | cons b rest ih =>
    by_cases he : excluded_by_hand hand_bbox b
    · simp only [validate_boxes, he, if_true, List.filter_cons, Bool.not_true,
        Bool.false_eq_true, ite_false]
      exact ih
    · by_cases hc : contains_crosshair w h b
      · simp only [validate_boxes, he, Bool.false_eq_true, if_false, hc, if_true,
          List.filter_cons, Bool.not_false, ite_true]
      · simp only [validate_boxes, he, Bool.false_eq_true, if_false, hc, ite_false,
          List.filter_cons, Bool.not_false, ite_true]
        exact ih

/-- C4: the crosshair is the frame's geometric centre `(w / 2, h / 2)`;
among the detections that survive the hand-overlap exclusion, the first in
the detector's native output order whose box contains the crosshair decides
the shot; if no surviving box contains the crosshair the result is a miss:
`valid = false`, no target team, no reporting call. -/
theorem validate_boxes_crosshair_selection (target_team : String) (w h : ℕ)
    (hand_bbox : Option Box) (counts : Box → ℕ × ℕ × ℕ) (net : NetOutcome)
    (boxes : List Box) :
    crosshair w h = (w / 2, h / 2)
    ∧ ((boxes.filter fun b => !excluded_by_hand hand_bbox b).filter
          (contains_crosshair w h) = [] →
        validate_boxes target_team w h hand_bbox counts net boxes =
          { valid := false, targetTeam := none, reports := 0 })
    ∧ (∀ b rest,
        (boxes.filter fun b => !excluded_by_hand hand_bbox b).filter
          (contains_crosshair w h) = b :: rest →
        validate_boxes target_team w h hand_bbox counts net boxes =
          judge_target target_team counts net b) := by
  refine ⟨rfl, ?_, ?_⟩
  · intro hnone
    rw [validate_boxes_eq_first_target, hnone]
  · intro b rest hcons
    rw [validate_boxes_eq_first_target, hcons]

/-- Witness for C4 at a concrete input: two person boxes, the first away
from the crosshair of a 100x100 frame and the second containing it, so the
second is selected; and the no-qualifier case is a miss. -/
theorem validate_boxes_crosshair_selection_witness :
    (validate_boxes "yellow" 100 100 none (fun _ => (0, 0, 0)) (.response 200 "ok")
        [⟨0, 0, 10, 10⟩, ⟨40, 40, 60, 60⟩] =
      judge_target "yellow" (fun _ => (0, 0, 0)) (.response 200 "ok") ⟨40, 40, 60, 60⟩)
    ∧ (validate_boxes "yellow" 100 100 none (fun _ => (0, 0, 0)) (.response 200 "ok")
        [⟨0, 0, 10, 10⟩] =
      { valid := false, targetTeam := none, reports := 0 }) := by
  constructor
  · exact (validate_boxes_crosshair_selection "yellow" 100 100 none (fun _ => (0, 0, 0))
      (.response 200 "ok") [⟨0, 0, 10, 10⟩, ⟨40, 40, 60, 60⟩]).2.2
      ⟨40, 40, 60, 60⟩ [] (by decide)
  · exact (validate_boxes_crosshair_selection "yellow" 100 100 none (fun _ => (0, 0, 0))
      (.response 200 "ok") [⟨0, 0, 10, 10⟩]).2.1 (by decide)

theorem classify_person_team_eq_ite (total yellow_pixels green_pixels : ℕ)
    (h : total ≠ 0) :
    classify_person_team total yellow_pixels green_pixels =
      (if (3 < (yellow_pixels : ℚ) / (total : ℚ) * 100 ∧ 500 < yellow_pixels) ∧
          (3 < (green_pixels : ℚ) / (total : ℚ) * 100 ∧ 500 < green_pixels) then
        (if green_pixels < yellow_pixels then some "yellow" else some "green")
      else if 3 < (yellow_pixels : ℚ) / (total : ℚ) * 100 ∧ 500 < yellow_pixels then
        some "yellow"
      else if 3 < (green_pixels : ℚ) / (total : ℚ) * 100 ∧ 500 < green_pixels then
        some "green"
      else none) := by
  unfold classify_person_team MIN_HIGHVIS_AREA
  rw [if_neg h]

end ShotAnalyzer

namespace ShotAnalyzer

/-- C5: a team colour counts as present iff its coverage percentage in the
analysed region strictly exceeds 3 and its pixel count strictly exceeds
`MIN_HIGHVIS_AREA = 500` (so a returned colour is present, and `none` is
returned exactly when neither colour is present); when both colours are
present the one with the strictly larger raw pixel count wins; and when no
colour is present the validator resolves the person to the default team
`"green"` instead of dropping the detection. -/
theorem classify_person_team_spec (total yp gp : ℕ) (hpos : 0 < total) :
    (classify_person_team total yp gp = some "yellow" →
        3 < (yp : ℚ) / (total : ℚ) * 100 ∧ MIN_HIGHVIS_AREA < yp)
    ∧ (classify_person_team total yp gp = some "green" →
        3 < (gp : ℚ) / (total : ℚ) * 100 ∧ MIN_HIGHVIS_AREA < gp)
    ∧ (classify_person_team total yp gp = none ↔
        ¬(3 < (yp : ℚ) / (total : ℚ) * 100 ∧ MIN_HIGHVIS_AREA < yp) ∧
        ¬(3 < (gp : ℚ) / (total : ℚ) * 100 ∧ MIN_HIGHVIS_AREA < gp))
    ∧ ((3 < (yp : ℚ) / (total : ℚ) * 100 ∧ MIN_HIGHVIS_AREA < yp) →
       (3 < (gp : ℚ) / (total : ℚ) * 100 ∧ MIN_HIGHVIS_AREA < gp) →
       gp ≠ yp →
        classify_person_team total yp gp =
          some (if gp < yp then "yellow" else "green"))
    ∧ (∀ (target_team : String) (counts : Box → ℕ × ℕ × ℕ) (net : NetOutcome)
          (b : Box),
        counts b = (total, yp, gp) → classify_person_team total yp gp = none →
        (judge_target target_team counts net b).targetTeam = some "green") := by
  have htz : total ≠ 0 := Nat.pos_iff_ne_zero.mp hpos
  have hMIN : MIN_HIGHVIS_AREA = 500 := rfl
  rw [hMIN]
  by_cases hY : 3 < (yp : ℚ) / (total : ℚ) * 100 ∧ 500 < yp
  · by_cases hG : 3 < (gp : ℚ) / (total : ℚ) * 100 ∧ 500 < gp
    · by_cases hlt : gp < yp
      · have hc : classify_person_team total yp gp = some "yellow" := by
          rw [classify_person_team_eq_ite total yp gp htz,
            if_pos ⟨hY, hG⟩, if_pos hlt]
        refine ⟨fun _ => hY, ?_, ?_, ?_, ?_⟩
        · intro h; rw [hc] at h; exact absurd h (by decide)
        · rw [hc]; constructor
          · intro h; exact absurd h (by decide)
          · intro ⟨h, _⟩; exact absurd hY h
        · intro _ _ _; rw [hc, if_pos hlt]
        · intro tt counts net b hcb hnone
          rw [hc] at hnone; exact absurd hnone (by decide)
      · have hc : classify_person_team total yp gp = some "green" := by
          rw [classify_person_team_eq_ite total yp gp htz,
            if_pos ⟨hY, hG⟩, if_neg hlt]
        refine ⟨?_, fun _ => hG, ?_, ?_, ?_⟩
        · intro h; rw [hc] at h; exact absurd h (by decide)
        · rw [hc]; constructor
          · intro h; exact absurd h (by decide)
          · intro ⟨h, _⟩; exact absurd hY h
        · intro _ _ _; rw [hc, if_neg hlt]
        · intro tt counts net b hcb hnone
          rw [hc] at hnone; exact absurd hnone (by decide)
    · have hc : classify_person_team total yp gp = some "yellow" := by
        rw [classify_person_team_eq_ite total yp gp htz,
          if_neg (fun hb => hG hb.2), if_pos hY]
      refine ⟨fun _ => hY, ?_, ?_, ?_, ?_⟩
      · intro h; rw [hc] at h; exact absurd h (by decide)
      · rw [hc]; constructor
        · intro h; exact absurd h (by decide)
        · intro ⟨h, _⟩; exact absurd hY h
      · intro _ hG2 _; exact absurd hG2 hG
      · intro tt counts net b hcb hnone
        rw [hc] at hnone; exact absurd hnone (by decide)
  · by_cases hG : 3 < (gp : ℚ) / (total : ℚ) * 100 ∧ 500 < gp
    · have hc : classify_person_team total yp gp = some "green" := by
        rw [classify_person_team_eq_ite total yp gp htz,
          if_neg (fun hb => hY hb.1), if_neg hY, if_pos hG]
      refine ⟨?_, fun _ => hG, ?_, ?_, ?_⟩
      · intro h; rw [hc] at h; exact absurd h (by decide)
      · rw [hc]; constructor
        · intro h; exact absurd h (by decide)
        · intro ⟨_, h⟩; exact absurd hG h
      · intro hY2 _ _; exact absurd hY2 hY
      · intro tt counts net b hcb hnone
        rw [hc] at hnone; exact absurd hnone (by decide)
    · have hc : classify_person_team total yp gp = none := by
        rw [classify_person_team_eq_ite total yp gp htz,
          if_neg (fun hb => hY hb.1), if_neg hY, if_neg hG]
      refine ⟨?_, ?_, ?_, ?_, ?_⟩
      · intro h; rw [hc] at h; exact absurd h (by decide)
      · intro h; rw [hc] at h; exact absurd h (by decide)
      · rw [hc]; exact ⟨fun _ => ⟨hY, hG⟩, fun _ => rfl⟩
      · intro hY2 _ _; exact absurd hY2 hY
      · intro tt counts net b hcb _
        unfold judge_target
        rw [hcb]
        simp only [hc, Option.getD_none]
        by_cases hg : "green" = tt
        · rw [if_pos hg]
        · rw [if_neg hg]

/-- Witness for C5 at concrete pixel statistics: region of 10000 pixels,
600 yellow and 5000 green pixels — both colours present (6% / 600 px and
50% / 5000 px), green strictly larger, so green is returned. -/
theorem classify_person_team_spec_witness :
    (0 : ℕ) < 10000 ∧
      classify_person_team 10000 600 5000 = some (if 5000 < 600 then "yellow" else "green") ∧
      (classify_person_team 10000 600 5000 = some "green" →
        3 < (5000 : ℚ) / (10000 : ℚ) * 100 ∧ MIN_HIGHVIS_AREA < 5000) :=
  ⟨by decide,
    (classify_person_team_spec 10000 600 5000 (by decide)).2.2.2.1
      (by constructor <;> norm_num [MIN_HIGHVIS_AREA])
      (by constructor <;> norm_num [MIN_HIGHVIS_AREA])
      (by decide),
    (classify_person_team_spec 10000 600 5000 (by decide)).2.1⟩

end ShotAnalyzer

namespace ShotAnalyzer

/-- C2 counterexample: for player 1 (configured target team `"yellow"`), a
target resolved to team `"green"` — which differs from the shooter's own
team `USER_TEAM = "regular"` — is nonetheless an invalid hit.  The code
accepts a hit only when the resolved team equals the configured target
team; no game-mode configuration selecting a differs-from-own-team rule
exists, so "valid iff the target's team differs from the shooter's own
team" fails at this input. -/
theorem hit_on_team_differing_from_own_invalid :
    (validate_boxes (PLAYER_CONFIG 1).2 100 100 none
        (fun _ => (10000, 0, 1000)) (.response 200 "ok")
        [⟨0, 0, 100, 100⟩]).valid = false
    ∧ (validate_boxes (PLAYER_CONFIG 1).2 100 100 none
        (fun _ => (10000, 0, 1000)) (.response 200 "ok")
        [⟨0, 0, 100, 100⟩]).targetTeam = some "green"
    ∧ "green" ≠ USER_TEAM := by
  have hcls : classify_person_team 10000 0 1000 = some "green" := by
    rw [classify_person_team_eq_ite 10000 0 1000 (by norm_num)]
    norm_num
  have hjudge : judge_target (PLAYER_CONFIG 1).2 (fun _ => (10000, 0, 1000))
      (.response 200 "ok") ⟨0, 0, 100, 100⟩ =
      { valid := false, targetTeam := some "green", reports := 0 } := by
    unfold judge_target
    simp only [hcls, Option.getD_some]
    rw [if_neg (by decide : ¬("green" : String) = (PLAYER_CONFIG 1).2)]
  have hval : validate_boxes (PLAYER_CONFIG 1).2 100 100 none
      (fun _ => (10000, 0, 1000)) (.response 200 "ok") [⟨0, 0, 100, 100⟩] =
      { valid := false, targetTeam := some "green", reports := 0 } := by
    rw [validate_boxes_eq_first_target]
    have hfil : ((([⟨0, 0, 100, 100⟩] : List Box).filter
        fun b => !excluded_by_hand none b).filter (contains_crosshair 100 100)) =
        [⟨0, 0, 100, 100⟩] := by decide
    rw [hfil]
    exact hjudge
  exact ⟨by rw [hval], by rw [hval], by decide⟩

theorem validate_boxes_valid_iff_target_team (target_team : String) (w h : ℕ)
    (hand_bbox : Option Box) (counts : Box → ℕ × ℕ × ℕ) (net : NetOutcome)
    (boxes : List Box) (tm : String) :
    (validate_boxes target_team w h hand_bbox counts net boxes).targetTeam = some tm →
      ((validate_boxes target_team w h hand_bbox counts net boxes).valid = true ↔
        tm = target_team) := by
  induction boxes with
  | nil => intro h; exact absurd h (by simp [validate_boxes])
  | cons b rest ih =>
    unfold validate_boxes
    split
    · exact ih
    · split
      · unfold judge_target
        by_cases hp : ((classify_person_team (counts b).1 (counts b).2.1
            (counts b).2.2).getD "green") = target_team
        · simp only [hp, if_true]
          intro htm
          simp only [Option.some.injEq] at htm
          simp [htm, hp]
        · simp only [hp, if_false]
          intro htm
          simp only [Option.some.injEq] at htm
          simp only [Bool.false_eq_true, false_iff]
          rw [← htm]
          exact hp
      · exact ih

/-- C2 amended: when the Hit Validator has selected a target (resolved team
`tm`), the hit is valid iff `tm` equals the shooter's *configured target
team* (`PLAYER_CONFIG`); the differs-from-own-team variant is not
implemented and no game-mode configuration chooses between the two.  The
kill-streak update `on_hit` adds exactly 1 on a valid hit and resets to 0
on an invalid hit or a miss. -/
theorem valid_iff_matches_configured_target (target_team : String) (w h : ℕ)
    (hand_bbox : Option Box) (counts : Box → ℕ × ℕ × ℕ) (net : NetOutcome)
    (boxes : List Box) (tm : String) (streak : ℕ) :
    ((validate_boxes target_team w h hand_bbox counts net boxes).targetTeam = some tm →
      ((validate_boxes target_team w h hand_bbox counts net boxes).valid = true ↔
        tm = target_team))
    ∧ FingerGun.on_hit streak true = streak + 1
    ∧ FingerGun.on_hit streak false = 0 :=
  ⟨validate_boxes_valid_iff_target_team target_team w h hand_bbox counts net boxes tm,
    rfl, rfl⟩

/-- Witness for the amended C2 at a concrete input: player 2 (target team
`"green"`) shooting a person resolved to `"green"` (no high-vis colour
detected defaults to green) is a valid hit, and the streak facts hold. -/
theorem valid_iff_matches_configured_target_witness :
    ((validate_boxes (PLAYER_CONFIG 2).2 100 100 none (fun _ => (0, 0, 0))
        (.response 200 "ok") [⟨0, 0, 100, 100⟩]).valid = true ↔
      "green" = (PLAYER_CONFIG 2).2) ∧
    FingerGun.on_hit 3 true = 4 ∧ FingerGun.on_hit 3 false = 0 :=
  ⟨(valid_iff_matches_configured_target (PLAYER_CONFIG 2).2 100 100 none
      (fun _ => (0, 0, 0)) (.response 200 "ok") [⟨0, 0, 100, 100⟩] "green" 3).1
      (by decide),
    (valid_iff_matches_configured_target (PLAYER_CONFIG 2).2 100 100 none
      (fun _ => (0, 0, 0)) (.response 200 "ok") [⟨0, 0, 100, 100⟩] "green" 3).2.1,
    (valid_iff_matches_configured_target (PLAYER_CONFIG 2).2 100 100 none
      (fun _ => (0, 0, 0)) (.response 200 "ok") [⟨0, 0, 100, 100⟩] "green" 3).2.2⟩

end ShotAnalyzer

namespace FingerGun

theorem initial_state_ghost_invariant :
    ∀ h : HandId, initial_state.last_shot_of_hand h ≤ initial_state.last_shot_time :=
  fun _ => le_refl 0

theorem detect_cock_motion_ghost_invariant (s : GState) (hand_id : HandId)
    (thumb_y now : ℚ)
    (hinv : ∀ h, s.last_shot_of_hand h ≤ s.last_shot_time) :
    ∀ h, ((detect_cock_motion s hand_id thumb_y now).2).last_shot_of_hand h ≤
      ((detect_cock_motion s hand_id thumb_y now).2).last_shot_time := by
  intro h
  unfold detect_cock_motion
  cases hprev : s.prev_thumb_y hand_id with
  | none => exact hinv h
  | some prev =>
    simp only
    split
    · exact hinv h
    · split
      · split
        · rename_i hcond hcool
          have hlt : s.last_shot_time < now := by
            have := not_lt.mp hcool
            have hcd : (0 : ℚ) < shot_cooldown := by norm_num [shot_cooldown]
            linarith
          by_cases hh : h = hand_id
          · simp [hh]
          · simp only [if_neg hh]
            exact le_trans (hinv h) (le_of_lt hlt)
        · exact hinv h
      · exact hinv h

/-- C1: a shot is emitted by `detect_cock_motion` only when that hand was
`Cocked` and at least `shot_cooldown = 1.0` seconds of wall-clock time have
passed since that hand's own last shot (the code keeps one shared
`last_shot_time`, which is never earlier than any individual hand's last
shot, so the shared cooldown bounds the per-hand gap from below); and on
any firing motion — downward thumb movement strictly past the threshold
while `Cocked` — the hand's state returns to `Idle` (`is_cocked = false`)
whether or not the shot was emitted. -/
theorem detect_cock_motion_spec (s : GState) (hand_id : HandId)
    (thumb_y now : ℚ)
    (hinv : ∀ h, s.last_shot_of_hand h ≤ s.last_shot_time) :
    ((detect_cock_motion s hand_id thumb_y now).1 = true →
        s.is_cocked hand_id = true ∧
        shot_cooldown ≤ now - s.last_shot_of_hand hand_id)
    ∧ (∀ prev, s.prev_thumb_y hand_id = some prev →
        cock_threshold < thumb_y - prev → s.is_cocked hand_id = true →
        ((detect_cock_motion s hand_id thumb_y now).2).is_cocked hand_id = false)
    ∧ shot_cooldown = 1 := by
  refine ⟨?_, ?_, rfl⟩
  · intro hshot
    unfold detect_cock_motion at hshot
    cases hprev : s.prev_thumb_y hand_id with
    | none => rw [hprev] at hshot; exact absurd hshot (by simp)
    | some prev =>
      rw [hprev] at hshot
      simp only at hshot
      split at hshot
      · exact absurd hshot (by simp)
      · split at hshot
        · split at hshot
          · rename_i hcond hcool
            refine ⟨hcond.2, ?_⟩
            have hshared : shot_cooldown ≤ now - s.last_shot_time := by
              have := not_lt.mp hcool
              linarith
            have := hinv hand_id
            linarith
          · exact absurd hshot (by simp)
        · exact absurd hshot (by simp)
  · intro prev hprev hmove hcocked
    unfold detect_cock_motion
    rw [hprev]
    simp only
    rw [if_neg (by
      rintro ⟨_, hic⟩
      rw [hcocked] at hic
      exact Bool.noConfusion hic)]
    rw [if_pos ⟨hmove, hcocked⟩]
    split
    · simp
    · simp

/-- Witness for C1 at a concrete input: from a state where the right hand
is cocked at thumb height 0 with last shot at time 0, a downward thumb
move to 0.1 at time 5 is a firing motion and un-cocks the hand; the shot
premise instantiates at the same input. -/
theorem detect_cock_motion_spec_witness :
    (∀ h : HandId,
      (GState.mk (fun _ => some 0) (fun _ => true) 0 (fun _ => 0)).last_shot_of_hand h ≤
        (GState.mk (fun _ => some 0) (fun _ => true) 0 (fun _ => 0)).last_shot_time)
    ∧ ((detect_cock_motion (GState.mk (fun _ => some 0) (fun _ => true) 0 (fun _ => 0))
        "Right" (1/10) 5).2).is_cocked "Right" = false :=
  ⟨fun _ => le_refl 0,
    (detect_cock_motion_spec (GState.mk (fun _ => some 0) (fun _ => true) 0 (fun _ => 0))
        "Right" (1/10) 5 (fun _ => le_refl 0)).2.1 0 rfl (by norm_num [cock_threshold]) rfl⟩

end FingerGun

namespace FingerGun

theorem closest_aux_spec (w h : ℤ) :
    ∀ (xs : List Landmarks) (szb : ℤ) (ib i : ℕ),
      szb ≤ (closest_aux w h szb ib i xs).1
      ∧ (∀ x ∈ xs, get_hand_size w h x ≤ (closest_aux w h szb ib i xs).1)
      ∧ (((closest_aux w h szb ib i xs).1 = szb ∧ (closest_aux w h szb ib i xs).2 = ib)
        ∨ (szb < (closest_aux w h szb ib i xs).1 ∧
            ∃ j y, xs.get? j = some y ∧ (closest_aux w h szb ib i xs).2 = i + j ∧
              get_hand_size w h y = (closest_aux w h szb ib i xs).1 ∧
              ∀ k z, k < j → xs.get? k = some z →
                get_hand_size w h z < (closest_aux w h szb ib i xs).1)) := by
  intro xs
  induction xs with
  | nil =>
    intro szb ib i
    exact ⟨le_refl szb, fun x hx => absurd hx (List.not_mem_nil x),
      Or.inl ⟨rfl, rfl⟩⟩
  | cons x xs ih =>
    intro szb ib i
    by_cases hgt : szb < get_hand_size w h x
    · have hstep : closest_aux w h szb ib i (x :: xs) =
          closest_aux w h (get_hand_size w h x) i (i + 1) xs := by
        simp only [closest_aux]
        rw [if_pos hgt]
      rw [hstep]
      obtain ⟨ih1, ih2, ih3⟩ := ih (get_hand_size w h x) i (i + 1)
      refine ⟨le_trans (le_of_lt hgt) ih1, ?_, ?_⟩
      · intro y hy
        rcases List.mem_cons.mp hy with hy | hy
        · rw [hy]; exact ih1
        · exact ih2 y hy
      · rcases ih3 with ⟨heq, hidx⟩ | ⟨hlt, j, y, hget, hidx, hsz, hprev⟩
        · refine Or.inr ⟨lt_of_lt_of_le hgt ih1, 0, x, rfl, by omega, heq.symm,
            fun k z hk _ => absurd hk (Nat.not_lt_zero k)⟩
        · refine Or.inr ⟨lt_trans hgt hlt, j + 1, y, ?_, by omega, hsz, ?_⟩
          · simpa using hget
          · intro k z hk hkz
            cases k with
            | zero =>
              have hz : z = x := by
                simp only [List.get?_cons_zero, Option.some.injEq] at hkz
                exact hkz.symm
              rw [hz]; exact hlt
            | succ k =>
              have hkz2 : xs.get? k = some z := by simpa using hkz
              exact hprev k z (by omega) hkz2
    · have hle : get_hand_size w h x ≤ szb := not_lt.mp hgt
      have hstep : closest_aux w h szb ib i (x :: xs) =
          closest_aux w h szb ib (i + 1) xs := by
        simp only [closest_aux]
        rw [if_neg hgt]
      rw [hstep]
      obtain ⟨ih1, ih2, ih3⟩ := ih szb ib (i + 1)
      refine ⟨ih1, ?_, ?_⟩
      · intro y hy
        rcases List.mem_cons.mp hy with hy | hy
        · rw [hy]; exact le_trans hle ih1
        · exact ih2 y hy
      · rcases ih3 with ⟨heq, hidx⟩ | ⟨hlt, j, y, hget, hidx, hsz, hprev⟩
        · exact Or.inl ⟨heq, hidx⟩
        · refine Or.inr ⟨hlt, j + 1, y, ?_, by omega, hsz, ?_⟩
          · simpa using hget
          · intro k z hk hkz
            cases k with
            | zero =>
              have hz : z = x := by
                simp only [List.get?_cons_zero, Option.some.injEq] at hkz
                exact hkz.symm
              rw [hz]; exact lt_of_le_of_lt hle hlt
            | succ k =>
              have hkz2 : xs.get? k = some z := by simpa using hkz
              exact hprev k z (by omega) hkz2

/-- C6: `get_closest_hand` on the empty list returns `(None, -1)`; on a
non-empty list of hands whose padded bounding boxes have non-negative area
it returns the hand of maximal area at the least index attaining that
maximum — so with a strict maximum that hand is chosen, and among
equal-area hands the first in input order wins.  Being a plain function of
its input list, the selection is pure. -/
theorem get_closest_hand_spec (w h : ℤ) (hands : List Landmarks) :
    get_closest_hand w h [] = (none, -1)
    ∧ (hands ≠ [] → (∀ lms ∈ hands, 0 ≤ get_hand_size w h lms) →
        ∃ best, ∃ i : ℕ, get_closest_hand w h hands = (some best, (i : ℤ))
          ∧ hands.get? i = some best
          ∧ (∀ lms ∈ hands, get_hand_size w h lms ≤ get_hand_size w h best)
          ∧ ∀ j y, j < i → hands.get? j = some y →
              get_hand_size w h y < get_hand_size w h best) := by
  refine ⟨rfl, ?_⟩
  intro hne hnn
  cases hands with
  | nil => exact absurd rfl hne
  | cons x xs =>
    obtain ⟨h1, h2, h3⟩ := closest_aux_spec w h (x :: xs) 0 0 0
    have hres : get_closest_hand w h (x :: xs) =
        ((x :: xs).get? (closest_aux w h 0 0 0 (x :: xs)).2,
          ((closest_aux w h 0 0 0 (x :: xs)).2 : ℤ)) := rfl
    rcases h3 with ⟨heq, hidx⟩ | ⟨hlt, j, y, hget, hidx, hsz, hprev⟩
    · refine ⟨x, 0, ?_, rfl, ?_, fun j y hj _ => absurd hj (Nat.not_lt_zero j)⟩
      · rw [hres, hidx]
        simp
      · intro lms hmem
        have hx0 : get_hand_size w h x = 0 := by
          have hxle : get_hand_size w h x ≤ 0 := heq ▸ h2 x (List.mem_cons_self x xs)
          have hxge : 0 ≤ get_hand_size w h x := hnn x (List.mem_cons_self x xs)
          omega
        have hl := h2 lms hmem
        rw [heq] at hl
        omega
    · refine ⟨y, j, ?_, hget, ?_, ?_⟩
      · rw [hres, hidx]
        simp only [Nat.zero_add]
        rw [hget]
      · intro lms hmem
        rw [hsz]
        exact h2 lms hmem
      · intro k z hk hkz
        rw [hsz]
        exact hprev k z hk hkz

/-- Witness for C6 at a concrete input: of three single-landmark hands with
padded box areas 3600, 10000 and 10000 in a 200x200 frame, the second —
the first of maximal area — is selected, at index 1. -/
theorem get_closest_hand_spec_witness :
    ([[((30 : ℤ), (30 : ℤ))], [(100, 100)], [(130, 130)]] ≠ ([] : List Landmarks))
    ∧ (∃ best, ∃ i : ℕ,
        get_closest_hand 200 200 [[((30 : ℤ), (30 : ℤ))], [(100, 100)], [(130, 130)]] =
          (some best, (i : ℤ))
        ∧ ([[((30 : ℤ), (30 : ℤ))], [(100, 100)], [(130, 130)]] : List Landmarks).get? i =
            some best
        ∧ (∀ lms ∈ ([[((30 : ℤ), (30 : ℤ))], [(100, 100)], [(130, 130)]] : List Landmarks),
            get_hand_size 200 200 lms ≤ get_hand_size 200 200 best)
        ∧ ∀ j y, j < i →
            ([[((30 : ℤ), (30 : ℤ))], [(100, 100)], [(130, 130)]] : List Landmarks).get? j =
              some y →
            get_hand_size 200 200 y < get_hand_size 200 200 best) :=
  ⟨by decide,
    (get_closest_hand_spec 200 200
        [[((30 : ℤ), (30 : ℤ))], [(100, 100)], [(130, 130)]]).2
      (by decide) (by decide)⟩

end FingerGun

namespace FingerGun

theorem reconnect_loop_all_failures (n : ℕ) :
    reconnect_loop (List.replicate n (false, false)) = (.reconnecting, n) := by
  induction n with
  | zero => rfl
  | succ n ih =>
    have hstep : reconnect_loop ((false, false) :: List.replicate n (false, false)) =
        ((reconnect_loop (List.replicate n (false, false))).1,
          (reconnect_loop (List.replicate n (false, false))).2 + 1) := by
      simp [reconnect_loop]
    rw [List.replicate_succ, hstep, ih]

theorem reconnect_loop_failures_then (n : ℕ) (it : Bool × Bool) :
    reconnect_loop (List.replicate n (false, false) ++ [it]) =
      ((reconnect_loop [it]).1, (reconnect_loop [it]).2 + n) := by
  induction n with
  | zero => simp
  | succ n ih =>
    have hrw : List.replicate (n + 1) (false, false) ++ [it] =
        (false, false) :: (List.replicate n (false, false) ++ [it]) := by
      simp [List.replicate_succ]
    have hstep :
        reconnect_loop ((false, false) :: (List.replicate n (false, false) ++ [it])) =
          ((reconnect_loop (List.replicate n (false, false) ++ [it])).1,
            (reconnect_loop (List.replicate n (false, false) ++ [it])).2 + 1) := by
      simp [reconnect_loop]
    rw [hrw, hstep, ih]
    rfl

set_option maxRecDepth 4000 in
/-- C9: in the read loop of `main`, 30 consecutive failed `read()` calls —
and no fewer — move the Video Source out of streaming into the reconnect
loop (a successful read resets the counter); the reconnect loop sleeps the
fixed `reconnect_retry_interval = 2` seconds after each failed attempt, so
`n` failed attempts before a success make exactly `n` such sleeps, it runs
until a successful attempt or the external quit key, and the source is not
open at any point of the gap — after any number of failed attempts it is
still `reconnecting` with `rstate_open = false` (and on the WebRTC client,
`isOpened` is `false` whenever `connected` is) — until an attempt succeeds. -/
theorem thirty_failures_reconnect_every_two_seconds :
    (run_reads (List.replicate 30 false)).mode = .reconnecting
    ∧ (∀ n, n < 30 → (run_reads (List.replicate n false)).mode = .streaming)
    ∧ (∀ s : MainState, read_step s true = ⟨0, .streaming⟩)
    ∧ (∀ n : ℕ, reconnect_loop (List.replicate n (false, false) ++ [(true, false)]) =
        (.connected, n))
    ∧ (∀ n : ℕ, reconnect_loop (List.replicate n (false, false)) = (.reconnecting, n)
        ∧ rstate_open (reconnect_loop (List.replicate n (false, false))).1 = false)
    ∧ (∀ n : ℕ, reconnect_loop (List.replicate n (false, false) ++ [(false, true)]) =
        (.stopped, n + 1))
    ∧ (∀ running : Bool, WebRTC.isOpened false running = false)
    ∧ max_failures = 30 ∧ reconnect_retry_interval = 2 := by
  refine ⟨by decide, by decide, ?_, ?_, ?_, ?_, ?_, rfl, rfl⟩
  · intro s
    simp [read_step]
  · intro n
    rw [reconnect_loop_failures_then]
    simp [reconnect_loop]
  · intro n
    rw [reconnect_loop_all_failures]
    exact ⟨rfl, rfl⟩
  · intro n
    rw [reconnect_loop_failures_then]
    simp [reconnect_loop, Nat.add_comm]
  · intro running
    rfl

/-- Witness for C9 at concrete inputs: after 29 consecutive failures the
source is still streaming, and three failed reconnect attempts before a
success give exactly three retry sleeps. -/
theorem thirty_failures_reconnect_witness :
    (29 : ℕ) < 30 ∧ (run_reads (List.replicate 29 false)).mode = .streaming ∧
      reconnect_loop (List.replicate 3 (false, false) ++ [(true, false)]) =
        (.connected, 3) :=
  ⟨by decide,
    thirty_failures_reconnect_every_two_seconds.2.1 29 (by decide),
    thirty_failures_reconnect_every_two_seconds.2.2.2.1 3⟩

end FingerGun
